import Mathlib

/-!
Shallow embedding of `python-packaging/src/policy.rs` (PyOxidizer): packaging
policy for Python resources — resource-placement policy and extension-module
filter parsing/formatting, the resource-inclusion predicate, and the
extension-module variant-resolution algorithm.

Text is modelled as `List Char`.  The Rust `HashMap`s are modelled as
association lists with the usual insert/lookup/update operations.  Types that
live in `resource.rs` and `licensing.rs` (not part of the sources embedded
here) are modelled from the spec and marked as such in their doc comments.
-/

/-- Text (Rust `&str` / `String`) is modelled as a list of characters. -/
abbrev Str := List Char

/-- Lookup in an association list, modelling `HashMap::get`. -/
def assocGet {α : Type} : List (String × α) → String → Option α
  | [], _ => none
  | kv :: rest, k => if kv.1 = k then some kv.2 else assocGet rest k

/-- Key-membership test, modelling `HashMap::contains_key`. -/
def assocContainsKey {α : Type} (m : List (String × α)) (k : String) : Bool :=
  (assocGet m k).isSome

/-- Insert/replace a binding, modelling `HashMap::insert`. -/
def assocInsert {α : Type} : List (String × α) → String → α → List (String × α)
  | [], k, v => [(k, v)]
  | kv :: rest, k, v => if kv.1 = k then (k, v) :: rest else kv :: assocInsert rest k v

/-- Append one element to the list stored under a key, modelling
`HashMap::get_mut(..).unwrap().push(..)` on a `HashMap<String, Vec<String>>`.
Does nothing when the key is absent (the caller inserts the key first). -/
def assocPush : List (String × List String) → String → String → List (String × List String)
  | [], _, _ => []
  | kv :: rest, k, e => if kv.1 = k then (kv.1, kv.2 ++ [e]) :: rest else kv :: assocPush rest k e

/-- Policy for the location of Python resources (`PythonResourcesPolicy` in
policy.rs): load from memory only, from a filesystem path relative to the
binary (with an install prefix), or a hybrid of the two. -/
inductive PythonResourcesPolicy where
  | InMemoryOnly : PythonResourcesPolicy
  | FilesystemRelativeOnly : Str → PythonResourcesPolicy
  | PreferInMemoryFallbackFilesystemRelative : Str → PythonResourcesPolicy
deriving DecidableEq, Repr

/-- The literal `"in-memory-only"`. -/
def inMemoryOnlyText : Str := "in-memory-only".data

/-- The literal `"filesystem-relative-only:"`. -/
def fsRelativeOnlyText : Str := "filesystem-relative-only:".data

/-- The literal `"prefer-in-memory-fallback-filesystem-relative:"`. -/
def preferFallbackText : Str := "prefer-in-memory-fallback-filesystem-relative:".data

/-- Parsing of a `PythonResourcesPolicy` from text (`TryFrom<&str>` impl in
policy.rs, lines 40–63).  The error is the `anyhow!` message carrying the
offending value. -/
def PythonResourcesPolicy.try_from (value : Str) : Except Str PythonResourcesPolicy :=
  if value = inMemoryOnlyText then
    .ok .InMemoryOnly
  else if fsRelativeOnlyText.isPrefixOf value then
    .ok (.FilesystemRelativeOnly (value.drop fsRelativeOnlyText.length))
  else if preferFallbackText.isPrefixOf value then
    .ok (.PreferInMemoryFallbackFilesystemRelative (value.drop preferFallbackText.length))
  else
    .error ("invalid value for Python Resources Policy: ".data ++ value)

/-- Formatting of a `PythonResourcesPolicy` to text (`Into<String>` impl in
policy.rs, lines 65–77). -/
def PythonResourcesPolicy.into_string : PythonResourcesPolicy → Str
  | .FilesystemRelativeOnly pre => fsRelativeOnlyText ++ pre
  | .InMemoryOnly => inMemoryOnlyText
  | .PreferInMemoryFallbackFilesystemRelative pre => preferFallbackText ++ pre

/-- Methods to filter extension modules (`ExtensionModuleFilter` in policy.rs). -/
inductive ExtensionModuleFilter where
  | Minimal : ExtensionModuleFilter
  | All : ExtensionModuleFilter
  | NoLibraries : ExtensionModuleFilter
  | NoGPL : ExtensionModuleFilter
deriving DecidableEq, Repr

/-- Parsing of an `ExtensionModuleFilter` from text (`TryFrom<&str>` impl in
policy.rs, lines 88–100).  The error is the formatted message carrying the
offending value. -/
def ExtensionModuleFilter.try_from (value : Str) : Except Str ExtensionModuleFilter :=
  if value = "minimal".data then .ok .Minimal
  else if value = "all".data then .ok .All
  else if value = "no-libraries".data then .ok .NoLibraries
  else if value = "no-gpl".data then .ok .NoGPL
  else .error (value ++ " is not a valid extension module filter".data)

/-- Modelled from the spec: `PythonExtensionModule` lives in `resource.rs`,
which is not among the embedded sources.  A variant of an extension module: a
logical extension name, a variant name (the key used by the preferred-variant
map), the "minimally required" predicate, the "requires external libraries"
predicate, and licensing metadata (`link_libraries`, `licenses`,
`license_public_domain`). -/
structure PythonExtensionModule where
  name : String
  variant : String
  is_minimally_required : Bool
  requires_libraries : Bool
  link_libraries : List String
  licenses : Option (List String)
  license_public_domain : Option Bool
deriving DecidableEq, Repr

/-- Modelled from the spec: a placeholder extension module, used only to make
`default_variant` total on the empty group (where the original code would
panic; the collaborators supply non-empty groups). -/
def placeholderExtensionModule : PythonExtensionModule :=
  { name := "", variant := "", is_minimally_required := false,
    requires_libraries := false, link_libraries := [], licenses := none,
    license_public_domain := none }

/-- Modelled from the spec: `PythonExtensionModuleVariants` lives in
`resource.rs`, which is not among the embedded sources.  An ordered collection
of interchangeable variants sharing one logical extension name. -/
structure PythonExtensionModuleVariants where
  variants : List PythonExtensionModule
deriving DecidableEq, Repr

/-- Modelled from the spec: the designated default variant of a group (the
first variant; groups supplied by the collaborators are non-empty). -/
def PythonExtensionModuleVariants.default_variant
    (v : PythonExtensionModuleVariants) : PythonExtensionModule :=
  v.variants.headD placeholderExtensionModule

/-- Emptiness check on a variant group (`Vec::is_empty`). -/
def PythonExtensionModuleVariants.is_empty (v : PythonExtensionModuleVariants) : Bool :=
  v.variants.isEmpty

/-- Collecting an iterator of variants into a group (`FromIterator`). -/
def PythonExtensionModuleVariants.from_iter
    (l : List PythonExtensionModule) : PythonExtensionModuleVariants :=
  ⟨l⟩

/-- Modelled from the spec: the external variant-chooser (`choose_variant` in
`resource.rs`, not among the embedded sources).  Deterministic and
name-preference-aware: if the preferred-variant map binds this group's
extension name to a variant name present in the group, that variant is chosen;
otherwise the default variant. -/
def PythonExtensionModuleVariants.choose_variant
    (v : PythonExtensionModuleVariants) (preferred : List (String × String)) :
    PythonExtensionModule :=
  match assocGet preferred v.default_variant.name with
  | some want =>
    match v.variants.find? (fun em => em.variant == want) with
    | some em => em
    | none => v.default_variant
  | none => v.default_variant

/-- Modelled from the spec: the external non-copyleft license allow-list
`NON_GPL_LICENSES` (`licensing.rs`, not among the embedded sources): a static
set of license identifiers considered safe — permissive identifiers such as
MIT are present, GPL-family identifiers are absent. -/
def NON_GPL_LICENSES : List String :=
  ["Apache-2.0", "BSD-2-Clause", "BSD-3-Clause", "ISC", "MIT", "Python-2.0",
   "Unlicense", "Zlib"]

/-- Modelled from the spec: the `PythonResource` tagged union (`resource.rs`,
not among the embedded sources).  The policy consults only the kind tag and,
for sources, bytecode requests and resources, the `is_test` flag, so only
those are carried here. -/
inductive PythonResource where
  | ModuleSource (is_test : Bool) : PythonResource
  | ModuleBytecodeRequest (is_test : Bool) : PythonResource
  | ModuleBytecode : PythonResource
  | Resource (is_test : Bool) : PythonResource
  | DistributionResource : PythonResource
  | ExtensionModuleDynamicLibrary : PythonResource
  | ExtensionModuleStaticallyLinked : PythonResource
  | PathExtension : PythonResource
  | EggFile : PythonResource
deriving DecidableEq, Repr

/-- The packaging policy aggregate (`PythonPackagingPolicy` in policy.rs,
lines 102–128). -/
structure PythonPackagingPolicy where
  extension_module_filter : ExtensionModuleFilter
  preferred_extension_module_variants : List (String × String)
  resources_policy : PythonResourcesPolicy
  include_distribution_sources : Bool
  include_distribution_resources : Bool
  include_test : Bool
  broken_extensions : List (String × List String)
deriving DecidableEq, Repr

/-- The `Default` impl for `PythonPackagingPolicy` (policy.rs, lines 130–142). -/
def PythonPackagingPolicy.default : PythonPackagingPolicy :=
  { extension_module_filter := .All,
    preferred_extension_module_variants := [],
    resources_policy := .InMemoryOnly,
    include_distribution_sources := true,
    include_distribution_resources := false,
    include_test := false,
    broken_extensions := [] }

/-- Setter for the extension module filter (policy.rs, lines 150–153). -/
def PythonPackagingPolicy.set_extension_module_filter
    (p : PythonPackagingPolicy) (filter : ExtensionModuleFilter) : PythonPackagingPolicy :=
  { p with extension_module_filter := filter }

/-- Setter denoting the preferred variant for an extension module
(policy.rs, lines 155–161). -/
def PythonPackagingPolicy.set_preferred_extension_module_variant
    (p : PythonPackagingPolicy) (extension variant : String) : PythonPackagingPolicy :=
  { p with preferred_extension_module_variants :=
      assocInsert p.preferred_extension_module_variants extension variant }

/-- Setter for the resource loading policy (policy.rs, lines 168–171). -/
def PythonPackagingPolicy.set_resources_policy
    (p : PythonPackagingPolicy) (policy : PythonResourcesPolicy) : PythonPackagingPolicy :=
  { p with resources_policy := policy }

/-- Setter for inclusion of distribution module source code
(policy.rs, lines 173–176). -/
def PythonPackagingPolicy.set_include_distribution_sources
    (p : PythonPackagingPolicy) (incl : Bool) : PythonPackagingPolicy :=
  { p with include_distribution_sources := incl }

/-- Setter for inclusion of distribution package resources
(policy.rs, lines 178–181). -/
def PythonPackagingPolicy.set_include_distribution_resources
    (p : PythonPackagingPolicy) (incl : Bool) : PythonPackagingPolicy :=
  { p with include_distribution_resources := incl }

/-- Setter for inclusion of test modules (policy.rs, lines 183–186). -/
def PythonPackagingPolicy.set_include_test
    (p : PythonPackagingPolicy) (incl : Bool) : PythonPackagingPolicy :=
  { p with include_test := incl }

/-- Mark an extension as broken on a target platform
(policy.rs, lines 188–199): if the triple has no entry yet, insert an empty
list for it; then push the extension name onto the triple's list. -/
def PythonPackagingPolicy.register_broken_extension
    (p : PythonPackagingPolicy) (target_triple extension : String) : PythonPackagingPolicy :=
  let m := if ¬ assocContainsKey p.broken_extensions target_triple then
      assocInsert p.broken_extensions target_triple []
    else
      p.broken_extensions
  { p with broken_extensions := assocPush m target_triple extension }

/-- The resource-inclusion predicate `filter_python_resource`
(policy.rs, lines 207–231). -/
def PythonPackagingPolicy.filter_python_resource
    (p : PythonPackagingPolicy) : PythonResource → Bool
  | .ModuleSource is_test =>
    if !p.include_test && is_test then false else p.include_distribution_sources
  | .ModuleBytecodeRequest is_test => p.include_test || !is_test
  | .ModuleBytecode => false
  | .Resource is_test =>
    if p.include_distribution_resources then p.include_test || !is_test else false
  | .DistributionResource => false
  | .ExtensionModuleDynamicLibrary => false
  | .ExtensionModuleStaticallyLinked => false
  | .PathExtension => false
  | .EggFile => false

/-- The per-variant admission closure of the `NoGPL` arm
(policy.rs, lines 307–332): no linked libraries, or an explicit public-domain
flag, or an explicit license list all of whose entries are in the allow-list;
otherwise excluded. -/
def nogpl_admits (em : PythonExtensionModule) : Bool :=
  if em.link_libraries.isEmpty then true
  else if em.license_public_domain = some true then true
  else match em.licenses with
    | some licenses => licenses.all (fun license => NON_GPL_LICENSES.contains license)
    | none => false

/-- The candidate set each strategy arm of `resolve_python_extension_modules`
filters a group down to before choosing (policy.rs, lines 274–343):
`Minimal` adds nothing further, `All` keeps every variant, `NoLibraries`
keeps the variants not requiring libraries, `NoGPL` keeps the variants
admitted by `nogpl_admits`. -/
def strategy_candidates (p : PythonPackagingPolicy)
    (variants : PythonExtensionModuleVariants) : List PythonExtensionModule :=
  match p.extension_module_filter with
  | .Minimal => []
  | .All => variants.variants
  | .NoLibraries => variants.variants.filter (fun em => !em.requires_libraries)
  | .NoGPL => variants.variants.filter nogpl_admits

/-- The body of the per-group resolution step, after the denylist check
(policy.rs, lines 255–343): first the mandatory minimal inclusion, then the
strategy-specific inclusion. -/
def process_group_body (p : PythonPackagingPolicy)
    (variants : PythonExtensionModuleVariants) : List PythonExtensionModule :=
  let ext_variants := PythonExtensionModuleVariants.from_iter
    (variants.variants.filter (fun em => em.is_minimally_required))
  (if ¬ ext_variants.is_empty then
    [ext_variants.choose_variant p.preferred_extension_module_variants]
  else []) ++
  match p.extension_module_filter with
  | .Minimal => []
  | .All => [variants.choose_variant p.preferred_extension_module_variants]
  | .NoLibraries =>
    let ev := PythonExtensionModuleVariants.from_iter
      (variants.variants.filter (fun em => !em.requires_libraries))
    if ¬ ev.is_empty then
      [ev.choose_variant p.preferred_extension_module_variants]
    else []
  | .NoGPL =>
    let ev := PythonExtensionModuleVariants.from_iter
      (variants.variants.filter nogpl_admits)
    if ¬ ev.is_empty then
      [ev.choose_variant p.preferred_extension_module_variants]
    else []

/-- One iteration of the loop of `resolve_python_extension_modules`
(policy.rs, lines 242–344): skip the whole group when the default variant's
name is registered broken for the target triple, otherwise run the inclusion
steps. -/
def process_group (p : PythonPackagingPolicy) (target_triple : String)
    (variants : PythonExtensionModuleVariants) : List PythonExtensionModule :=
  if ((assocGet p.broken_extensions target_triple).getD []).contains
      variants.default_variant.name then
    []
  else
    process_group_body p variants

/-- Resolution of policy-compliant extension modules
(`resolve_python_extension_modules`, policy.rs, lines 235–347): the loop over
the groups, accumulating into `res`, always returning `Ok`. -/
def PythonPackagingPolicy.resolve_python_extension_modules
    (p : PythonPackagingPolicy) (extensions_variants : List PythonExtensionModuleVariants)
    (target_triple : String) : Except String (List PythonExtensionModule) :=
  .ok (extensions_variants.foldl
    (fun res variants => res ++ process_group p target_triple variants) [])

/-- A concrete minimally-required variant with no linked libraries. -/
def emFooStd : PythonExtensionModule :=
  { name := "foo", variant := "standard", is_minimally_required := true,
    requires_libraries := false, link_libraries := [], licenses := some ["MIT"],
    license_public_domain := none }

/-- A concrete non-minimal variant that links against a library and carries no
license metadata. -/
def emFooAlt : PythonExtensionModule :=
  { name := "foo", variant := "alt", is_minimally_required := false,
    requires_libraries := true, link_libraries := ["libfoo"], licenses := none,
    license_public_domain := none }

/-- A concrete non-minimal variant of a second extension named `bar`. -/
def emBarStd : PythonExtensionModule :=
  { name := "bar", variant := "standard", is_minimally_required := false,
    requires_libraries := true, link_libraries := ["libbar"], licenses := none,
    license_public_domain := none }

/-- A two-variant group for extension `foo`. -/
def groupFoo : PythonExtensionModuleVariants := ⟨[emFooStd, emFooAlt]⟩

/-- A one-variant group with no minimally-required and no library-free variant. -/
def groupAlt : PythonExtensionModuleVariants := ⟨[emFooAlt]⟩

/-- A group whose default variant is named `foo` and whose second variant is
named `bar`. -/
def groupFooBar : PythonExtensionModuleVariants := ⟨[emFooStd, emBarStd]⟩

/-- The default policy with the `Minimal` filter. -/
def policyMinimal : PythonPackagingPolicy :=
  { PythonPackagingPolicy.default with extension_module_filter := .Minimal }

/-- The default policy with the `NoLibraries` filter. -/
def policyNoLibraries : PythonPackagingPolicy :=
  { PythonPackagingPolicy.default with extension_module_filter := .NoLibraries }

/-- The default policy with extension `foo` registered broken on triple `tri`. -/
def policyBrokenFoo : PythonPackagingPolicy :=
  { PythonPackagingPolicy.default with broken_extensions := [("tri", ["foo"])] }

/-- The default policy with extension `bar` registered broken on triple `tri`. -/
def policyBrokenBar : PythonPackagingPolicy :=
  { PythonPackagingPolicy.default with broken_extensions := [("tri", ["bar"])] }

/-- A list is a prefix of itself followed by anything. -/
theorem isPrefixOf_append_left (l t : Str) : l.isPrefixOf (l ++ t) = true := by
  induction l with
  | nil => simp [List.isPrefixOf]
  | cons a as ih => simp [List.isPrefixOf, ih]

/-- The default variant of a non-empty group is one of its variants. -/
theorem default_variant_mem (v : PythonExtensionModuleVariants)
    (h : v.variants ≠ []) : v.default_variant ∈ v.variants := by
  unfold PythonExtensionModuleVariants.default_variant
  cases hv : v.variants with
  | nil => exact absurd hv h
  | cons a as => simp

/-- The variant-chooser returns a member of a non-empty group. -/
theorem choose_variant_mem (v : PythonExtensionModuleVariants)
    (preferred : List (String × String)) (h : v.variants ≠ []) :
    v.choose_variant preferred ∈ v.variants := by
  unfold PythonExtensionModuleVariants.choose_variant
  split
  · split
    · next em hf => exact List.mem_of_find?_eq_some hf
    · exact default_variant_mem v h
  · exact default_variant_mem v h

/-- Lookup after insert: the inserted key maps to the new value; every other
key is unaffected. -/
theorem assocGet_assocInsert {α : Type} (m : List (String × α)) (k k2 : String)
    (v : α) :
    assocGet (assocInsert m k v) k2 = if k2 = k then some v else assocGet m k2 := by
  induction m with
  | nil =>
    simp only [assocInsert, assocGet]
    by_cases h : k2 = k
    · subst h
      simp
    · rw [if_neg (fun hh => h hh.symm), if_neg h]
  | cons kv rest ih =>
    simp only [assocInsert]
    by_cases hk : kv.1 = k
    · rw [if_pos hk]
      simp only [assocGet]
      by_cases h2 : k2 = k
      · rw [if_pos h2.symm, if_pos h2]
      · rw [if_neg (fun hh => h2 hh.symm), if_neg h2,
          if_neg (fun hh => h2 (hk.symm.trans hh).symm)]
    · rw [if_neg hk]
      simp only [assocGet]
      by_cases h2 : kv.1 = k2
      · rw [if_pos h2, if_neg (fun hh => hk (h2.trans hh)), if_pos h2]
      · rw [if_neg h2, ih]
        by_cases h3 : k2 = k
        · rw [if_pos h3, if_pos h3]
        · rw [if_neg h3, if_neg h3, if_neg h2]

/-- Lookup after a push: the pushed key's list gains the element at its end;
every other key is unaffected. -/
theorem assocGet_assocPush (m : List (String × List String)) (k k2 e : String) :
    assocGet (assocPush m k e) k2 =
      if k2 = k then (assocGet m k).map (fun l => l ++ [e]) else assocGet m k2 := by
  induction m with
  | nil =>
    simp only [assocPush, assocGet]
    by_cases h : k2 = k <;> simp [h]
  | cons kv rest ih =>
    simp only [assocPush]
    by_cases hk : kv.1 = k
    · rw [if_pos hk]
      simp only [assocGet]
      by_cases h2 : k2 = k
      · rw [if_pos (hk.trans h2.symm), if_pos h2, if_pos hk]
        rfl
      · rw [if_neg (fun hh => h2 (hk.symm.trans hh).symm), if_neg h2,
          if_neg (fun hh => h2 (hk.symm.trans hh).symm)]
    · rw [if_neg hk]
      simp only [assocGet]
      by_cases h2 : kv.1 = k2
      · rw [if_pos h2, if_neg (fun hh => hk (h2.trans hh)), if_pos h2]
      · rw [if_neg h2, ih]
        by_cases h3 : k2 = k
        · rw [if_pos h3, if_pos h3, if_neg hk]
        · rw [if_neg h3, if_neg h3, if_neg h2]

/-- C5: for every resource and every combination of the three inclusion
toggles, `filter_python_resource` matches the kind table exactly:
module sources iff distribution sources are included and the test gate
passes, bytecode requests iff the test gate passes, resources iff
distribution resources are included and the test gate passes, and the six
remaining kinds never. -/
theorem filter_python_resource_table (p : PythonPackagingPolicy) (b : Bool) :
    p.filter_python_resource (.ModuleSource b) =
      (p.include_distribution_sources && (p.include_test || !b)) ∧
    p.filter_python_resource (.ModuleBytecodeRequest b) = (p.include_test || !b) ∧
    p.filter_python_resource (.Resource b) =
      (p.include_distribution_resources && (p.include_test || !b)) ∧
    p.filter_python_resource .ModuleBytecode = false ∧
    p.filter_python_resource .DistributionResource = false ∧
    p.filter_python_resource .ExtensionModuleDynamicLibrary = false ∧
    p.filter_python_resource .ExtensionModuleStaticallyLinked = false ∧
    p.filter_python_resource .PathExtension = false ∧
    p.filter_python_resource .EggFile = false := by
  obtain ⟨f, pv, rp, ids, idr, it, be⟩ := p
  cases ids <;> cases idr <;> cases it <;> cases b <;>
    simp [PythonPackagingPolicy.filter_python_resource]

/-- C6: for every resource-placement policy value, over all three variants
and arbitrary prefixes (including the empty one and ones containing a colon),
parsing the formatted text yields the original value. -/
theorem resources_policy_round_trip (p : PythonResourcesPolicy) :
    PythonResourcesPolicy.try_from (PythonResourcesPolicy.into_string p) = .ok p := by
  cases p with
  | InMemoryOnly =>
    simp [PythonResourcesPolicy.into_string, PythonResourcesPolicy.try_from]
  | FilesystemRelativeOnly pre =>
    have h1 : ¬ (fsRelativeOnlyText ++ pre = inMemoryOnlyText) := by
      intro h
      have hl := congrArg List.length h
      simp [fsRelativeOnlyText, inMemoryOnlyText] at hl
    unfold PythonResourcesPolicy.into_string PythonResourcesPolicy.try_from
    rw [if_neg h1, if_pos (isPrefixOf_append_left _ _), List.drop_left]
  | PreferInMemoryFallbackFilesystemRelative pre =>
    have h1 : ¬ (preferFallbackText ++ pre = inMemoryOnlyText) := by
      intro h
      have hl := congrArg List.length h
      simp [preferFallbackText, inMemoryOnlyText] at hl
    have h2 : ¬ (fsRelativeOnlyText.isPrefixOf (preferFallbackText ++ pre) = true) := by
      simp [fsRelativeOnlyText, preferFallbackText, List.isPrefixOf]
    unfold PythonResourcesPolicy.into_string PythonResourcesPolicy.try_from
    rw [if_neg h1, if_neg h2, if_pos (isPrefixOf_append_left _ _), List.drop_left]

/-- C7: a resource-placement string that is not `in-memory-only` and starts
with neither recognized prefix parses to the invalid-policy-value error
carrying the input, and an extension-strategy string other than the four
literals parses to the invalid-filter-value error carrying the input. -/
theorem parse_rejects_unrecognized (s s2 : Str)
    (h1 : s ≠ inMemoryOnlyText)
    (h2 : fsRelativeOnlyText.isPrefixOf s = false)
    (h3 : preferFallbackText.isPrefixOf s = false)
    (h4 : s2 ≠ "minimal".data) (h5 : s2 ≠ "all".data)
    (h6 : s2 ≠ "no-libraries".data) (h7 : s2 ≠ "no-gpl".data) :
    PythonResourcesPolicy.try_from s =
      .error ("invalid value for Python Resources Policy: ".data ++ s) ∧
    ExtensionModuleFilter.try_from s2 =
      .error (s2 ++ " is not a valid extension module filter".data) := by
  constructor
  · unfold PythonResourcesPolicy.try_from
    rw [if_neg h1, if_neg (by simp [h2]), if_neg (by simp [h3])]
  · unfold ExtensionModuleFilter.try_from
    rw [if_neg h4, if_neg h5, if_neg h6, if_neg h7]

/-- Closed instance of `parse_rejects_unrecognized` at the input `bogus`. -/
theorem parse_rejects_unrecognized_witness :
    PythonResourcesPolicy.try_from "bogus".data =
      .error ("invalid value for Python Resources Policy: ".data ++ "bogus".data) ∧
    ExtensionModuleFilter.try_from "bogus".data =
      .error ("bogus".data ++ " is not a valid extension module filter".data) :=
  parse_rejects_unrecognized "bogus".data "bogus".data (by decide) (by decide)
    (by decide) (by decide) (by decide) (by decide) (by decide)

/-- The admission closure of the `NoGPL` arm, characterised as the ordered
first-match rule list of the spec. -/
theorem nogpl_admits_iff (em : PythonExtensionModule) :
    nogpl_admits em = true ↔
      (em.link_libraries = [] ∨
       (em.link_libraries ≠ [] ∧ em.license_public_domain = some true) ∨
       (em.link_libraries ≠ [] ∧ em.license_public_domain ≠ some true ∧
        ∃ ls, em.licenses = some ls ∧ ∀ l ∈ ls, l ∈ NON_GPL_LICENSES)) := by
  unfold nogpl_admits
  by_cases h1 : em.link_libraries = []
  · simp [h1]
  · by_cases h2 : em.license_public_domain = some true
    · simp [h1, h2]
    · cases hl : em.licenses with
      | none => simp [h1, h2, hl]
      | some ls =>
        simp [h1, h2, hl, List.all_eq_true, List.contains, List.elem_eq_mem]

/-- C2: under the `NoGPL` strategy, a variant is in the candidate set iff the
first matching rule of the ordered list admits it: no linked libraries;
else an explicitly true public-domain flag, regardless of any license list;
else a present license list all of whose entries are in the external non-GPL
allow-list; else excluded. -/
theorem nogpl_candidate_admission (g : PythonExtensionModuleVariants)
    (em : PythonExtensionModule) :
    em ∈ g.variants.filter nogpl_admits ↔
      em ∈ g.variants ∧
      (em.link_libraries = [] ∨
       (em.link_libraries ≠ [] ∧ em.license_public_domain = some true) ∨
       (em.link_libraries ≠ [] ∧ em.license_public_domain ≠ some true ∧
        ∃ ls, em.licenses = some ls ∧ ∀ l ∈ ls, l ∈ NON_GPL_LICENSES)) := by
  rw [List.mem_filter, nogpl_admits_iff]

/-- C1: under the `All` strategy, a group that passes the denylist check and
whose minimally-required subset is non-empty receives one entry from the
mandatory-minimal step and one unconditional entry from the strategy step —
exactly two entries, which may reference the same group. -/
theorem all_strategy_two_entries (p : PythonPackagingPolicy) (t : String)
    (g : PythonExtensionModuleVariants)
    (hf : p.extension_module_filter = .All)
    (hb : ((assocGet p.broken_extensions t).getD []).contains
      g.default_variant.name = false)
    (hm : g.variants.filter (fun em => em.is_minimally_required) ≠ []) :
    process_group p t g =
      [(PythonExtensionModuleVariants.from_iter
          (g.variants.filter (fun em => em.is_minimally_required))).choose_variant
        p.preferred_extension_module_variants,
       g.choose_variant p.preferred_extension_module_variants] ∧
    (process_group p t g).length = 2 := by
  have hne : (g.variants.filter (fun em => em.is_minimally_required)).isEmpty = false := by
    cases hl : g.variants.filter (fun em => em.is_minimally_required) with
    | nil => exact absurd hl hm
    | cons a as => rfl
  have hmain : process_group p t g =
      [(PythonExtensionModuleVariants.from_iter
          (g.variants.filter (fun em => em.is_minimally_required))).choose_variant
        p.preferred_extension_module_variants,
       g.choose_variant p.preferred_extension_module_variants] := by
    unfold process_group
    rw [if_neg (ne_true_of_eq_false hb)]
    simp only [process_group_body]
    rw [hf]
    simp [PythonExtensionModuleVariants.from_iter,
      PythonExtensionModuleVariants.is_empty, hne]
  exact ⟨hmain, by rw [hmain]; rfl⟩

/-- Closed instance of `all_strategy_two_entries`: the default policy (`All`
strategy) on a group with one minimally-required and one other variant. -/
theorem all_strategy_two_entries_witness :
    process_group PythonPackagingPolicy.default "tri" groupFoo =
      [(PythonExtensionModuleVariants.from_iter
          (groupFoo.variants.filter (fun em => em.is_minimally_required))).choose_variant
        PythonPackagingPolicy.default.preferred_extension_module_variants,
       groupFoo.choose_variant
        PythonPackagingPolicy.default.preferred_extension_module_variants] ∧
    (process_group PythonPackagingPolicy.default "tri" groupFoo).length = 2 :=
  all_strategy_two_entries PythonPackagingPolicy.default "tri" groupFoo
    (by decide) (by decide) (by decide)

/-- C3: a group whose default variant's name is registered broken for the
target triple contributes zero output entries, under every strategy. -/
theorem denylisted_group_zero_entries (p : PythonPackagingPolicy) (t : String)
    (g : PythonExtensionModuleVariants)
    (hb : ((assocGet p.broken_extensions t).getD []).contains
      g.default_variant.name = true) :
    process_group p t g = [] ∧
    p.resolve_python_extension_modules [g] t = .ok [] := by
  have h : process_group p t g = [] := by
    unfold process_group
    rw [if_pos hb]
  exact ⟨h, by
    simp [PythonPackagingPolicy.resolve_python_extension_modules, h]⟩

/-- Closed instance of `denylisted_group_zero_entries`: `foo` registered
broken on triple `tri` suppresses the `foo` group entirely. -/
theorem denylisted_group_zero_entries_witness :
    process_group policyBrokenFoo "tri" groupFoo = [] ∧
    policyBrokenFoo.resolve_python_extension_modules [groupFoo] "tri" = .ok [] :=
  denylisted_group_zero_entries policyBrokenFoo "tri" groupFoo (by decide)

/-- C4: a group passing the denylist check whose minimally-required subset is
non-empty first receives one entry chosen from that subset only, before and
independently of the strategy step; under `Minimal` that is the group's only
entry. -/
theorem minimal_subset_inclusion (p : PythonPackagingPolicy) (t : String)
    (g : PythonExtensionModuleVariants)
    (hb : ((assocGet p.broken_extensions t).getD []).contains
      g.default_variant.name = false)
    (hm : g.variants.filter (fun em => em.is_minimally_required) ≠ []) :
    (process_group p t g).head? =
      some ((PythonExtensionModuleVariants.from_iter
          (g.variants.filter (fun em => em.is_minimally_required))).choose_variant
        p.preferred_extension_module_variants) ∧
    (PythonExtensionModuleVariants.from_iter
        (g.variants.filter (fun em => em.is_minimally_required))).choose_variant
      p.preferred_extension_module_variants ∈
      g.variants.filter (fun em => em.is_minimally_required) ∧
    (p.extension_module_filter = .Minimal →
      process_group p t g =
        [(PythonExtensionModuleVariants.from_iter
            (g.variants.filter (fun em => em.is_minimally_required))).choose_variant
          p.preferred_extension_module_variants]) := by
  have hne : (g.variants.filter (fun em => em.is_minimally_required)).isEmpty = false := by
    cases hl : g.variants.filter (fun em => em.is_minimally_required) with
    | nil => exact absurd hl hm
    | cons a as => rfl
  have hskip : process_group p t g = process_group_body p g := by
    unfold process_group
    rw [if_neg (ne_true_of_eq_false hb)]
  refine ⟨?_, ?_, ?_⟩
  · rw [hskip]
    simp only [process_group_body]
    simp [PythonExtensionModuleVariants.from_iter,
      PythonExtensionModuleVariants.is_empty, hne]
  · exact choose_variant_mem _ _ hm
  · intro hmin
    rw [hskip]
    simp only [process_group_body]
    rw [hmin]
    simp [PythonExtensionModuleVariants.from_iter,
      PythonExtensionModuleVariants.is_empty, hne]

/-- Closed instance of `minimal_subset_inclusion` under the `Minimal`
strategy. -/
theorem minimal_subset_inclusion_witness :
    (process_group policyMinimal "tri" groupFoo).head? =
      some ((PythonExtensionModuleVariants.from_iter
          (groupFoo.variants.filter (fun em => em.is_minimally_required))).choose_variant
        policyMinimal.preferred_extension_module_variants) ∧
    (PythonExtensionModuleVariants.from_iter
        (groupFoo.variants.filter (fun em => em.is_minimally_required))).choose_variant
      policyMinimal.preferred_extension_module_variants ∈
      groupFoo.variants.filter (fun em => em.is_minimally_required) ∧
    (policyMinimal.extension_module_filter = .Minimal →
      process_group policyMinimal "tri" groupFoo =
        [(PythonExtensionModuleVariants.from_iter
            (groupFoo.variants.filter (fun em => em.is_minimally_required))).choose_variant
          policyMinimal.preferred_extension_module_variants]) :=
  minimal_subset_inclusion policyMinimal "tri" groupFoo (by decide) (by decide)

/-- C8: resolution never returns an error — for every policy, every group
sequence and every target triple the result is `Ok` — and a (non-empty) group
whose minimally-required subset and strategy candidate set are both empty
contributes zero entries rather than failing. -/
theorem resolve_always_ok (p : PythonPackagingPolicy)
    (gs : List PythonExtensionModuleVariants) (t : String)
    (g : PythonExtensionModuleVariants)
    (hne : g.variants ≠ [])
    (hmin : g.variants.filter (fun em => em.is_minimally_required) = [])
    (hcand : strategy_candidates p g = []) :
    (∃ out, p.resolve_python_extension_modules gs t = .ok out) ∧
    process_group p t g = [] := by
  refine ⟨⟨_, rfl⟩, ?_⟩
  unfold process_group
  split
  · rfl
  · simp only [process_group_body]
    unfold strategy_candidates at hcand
    cases hf : p.extension_module_filter with
    | Minimal =>
      rw [hf] at hcand
      simp [PythonExtensionModuleVariants.from_iter,
        PythonExtensionModuleVariants.is_empty, hmin]
    | All =>
      rw [hf] at hcand
      exact absurd hcand hne
    | NoLibraries =>
      rw [hf] at hcand
      have hcand2 : g.variants.filter (fun em => !em.requires_libraries) = [] := hcand
      simp [PythonExtensionModuleVariants.from_iter,
        PythonExtensionModuleVariants.is_empty, hmin, hcand2]
    | NoGPL =>
      rw [hf] at hcand
      have hcand2 : g.variants.filter nogpl_admits = [] := hcand
      simp [PythonExtensionModuleVariants.from_iter,
        PythonExtensionModuleVariants.is_empty, hmin, hcand2]

/-- Closed instance of `resolve_always_ok`: the `NoLibraries` policy on a
group with no minimally-required and no library-free variant. -/
theorem resolve_always_ok_witness :
    (∃ out, policyNoLibraries.resolve_python_extension_modules [groupFoo] "tri" =
      .ok out) ∧
    process_group policyNoLibraries "tri" groupAlt = [] :=
  resolve_always_ok policyNoLibraries [groupFoo] "tri" groupAlt
    (by decide) (by decide) (by decide)

/-- C10: the denylist check consults only the name of the group's default
variant — when that name is not registered broken for the triple, the group
is processed by the inclusion steps, even if a non-default variant's name is
registered broken. -/
theorem denylist_uses_default_variant_name (p : PythonPackagingPolicy)
    (t : String) (g : PythonExtensionModuleVariants)
    (hb : ((assocGet p.broken_extensions t).getD []).contains
      g.default_variant.name = false) :
    process_group p t g = process_group_body p g := by
  unfold process_group
  rw [if_neg (ne_true_of_eq_false hb)]

/-- Closed instance of `denylist_uses_default_variant_name`: `bar`, the name
of the group's second (non-default) variant, is registered broken on the
triple, yet the group is processed and contributes entries. -/
theorem denylist_uses_default_variant_name_witness :
    process_group policyBrokenBar "tri" groupFooBar =
      process_group_body policyBrokenBar groupFooBar ∧
    process_group policyBrokenBar "tri" groupFooBar ≠ [] ∧
    "bar" ∈ (assocGet policyBrokenBar.broken_extensions "tri").getD [] ∧
    emBarStd ∈ groupFooBar.variants ∧ emBarStd.name = "bar" :=
  ⟨denylist_uses_default_variant_name policyBrokenBar "tri" groupFooBar (by decide),
   by decide, by decide, by decide, by decide⟩

/-- C9: every setter modifies only its corresponding field, leaving all other
fields unchanged; `register_broken_extension` appends the extension name to
the list keyed by the triple (creating the entry if absent) and leaves every
other triple's list and every other field unchanged. -/
theorem setters_modify_only_their_field (p : PythonPackagingPolicy)
    (fil : ExtensionModuleFilter) (ext var : String)
    (rpol : PythonResourcesPolicy) (b1 b2 b3 : Bool) (t e t2 : String) :
    (p.set_extension_module_filter fil).extension_module_filter = fil ∧
    (p.set_extension_module_filter fil).preferred_extension_module_variants =
      p.preferred_extension_module_variants ∧
    (p.set_extension_module_filter fil).resources_policy = p.resources_policy ∧
    (p.set_extension_module_filter fil).include_distribution_sources =
      p.include_distribution_sources ∧
    (p.set_extension_module_filter fil).include_distribution_resources =
      p.include_distribution_resources ∧
    (p.set_extension_module_filter fil).include_test = p.include_test ∧
    (p.set_extension_module_filter fil).broken_extensions = p.broken_extensions ∧
    (p.set_preferred_extension_module_variant ext var).preferred_extension_module_variants =
      assocInsert p.preferred_extension_module_variants ext var ∧
    (p.set_preferred_extension_module_variant ext var).extension_module_filter =
      p.extension_module_filter ∧
    (p.set_preferred_extension_module_variant ext var).resources_policy =
      p.resources_policy ∧
    (p.set_preferred_extension_module_variant ext var).include_distribution_sources =
      p.include_distribution_sources ∧
    (p.set_preferred_extension_module_variant ext var).include_distribution_resources =
      p.include_distribution_resources ∧
    (p.set_preferred_extension_module_variant ext var).include_test = p.include_test ∧
    (p.set_preferred_extension_module_variant ext var).broken_extensions =
      p.broken_extensions ∧
    (p.set_resources_policy rpol).resources_policy = rpol ∧
    (p.set_resources_policy rpol).extension_module_filter = p.extension_module_filter ∧
    (p.set_resources_policy rpol).preferred_extension_module_variants =
      p.preferred_extension_module_variants ∧
    (p.set_resources_policy rpol).include_distribution_sources =
      p.include_distribution_sources ∧
    (p.set_resources_policy rpol).include_distribution_resources =
      p.include_distribution_resources ∧
    (p.set_resources_policy rpol).include_test = p.include_test ∧
    (p.set_resources_policy rpol).broken_extensions = p.broken_extensions ∧
    (p.set_include_distribution_sources b1).include_distribution_sources = b1 ∧
    (p.set_include_distribution_sources b1).extension_module_filter =
      p.extension_module_filter ∧
    (p.set_include_distribution_sources b1).preferred_extension_module_variants =
      p.preferred_extension_module_variants ∧
    (p.set_include_distribution_sources b1).resources_policy = p.resources_policy ∧
    (p.set_include_distribution_sources b1).include_distribution_resources =
      p.include_distribution_resources ∧
    (p.set_include_distribution_sources b1).include_test = p.include_test ∧
    (p.set_include_distribution_sources b1).broken_extensions = p.broken_extensions ∧
    (p.set_include_distribution_resources b2).include_distribution_resources = b2 ∧
    (p.set_include_distribution_resources b2).extension_module_filter =
      p.extension_module_filter ∧
    (p.set_include_distribution_resources b2).preferred_extension_module_variants =
      p.preferred_extension_module_variants ∧
    (p.set_include_distribution_resources b2).resources_policy = p.resources_policy ∧
    (p.set_include_distribution_resources b2).include_distribution_sources =
      p.include_distribution_sources ∧
    (p.set_include_distribution_resources b2).include_test = p.include_test ∧
    (p.set_include_distribution_resources b2).broken_extensions = p.broken_extensions ∧
    (p.set_include_test b3).include_test = b3 ∧
    (p.set_include_test b3).extension_module_filter = p.extension_module_filter ∧
    (p.set_include_test b3).preferred_extension_module_variants =
      p.preferred_extension_module_variants ∧
    (p.set_include_test b3).resources_policy = p.resources_policy ∧
    (p.set_include_test b3).include_distribution_sources =
      p.include_distribution_sources ∧
    (p.set_include_test b3).include_distribution_resources =
      p.include_distribution_resources ∧
    (p.set_include_test b3).broken_extensions = p.broken_extensions ∧
    (p.register_broken_extension t e).extension_module_filter =
      p.extension_module_filter ∧
    (p.register_broken_extension t e).preferred_extension_module_variants =
      p.preferred_extension_module_variants ∧
    (p.register_broken_extension t e).resources_policy = p.resources_policy ∧
    (p.register_broken_extension t e).include_distribution_sources =
      p.include_distribution_sources ∧
    (p.register_broken_extension t e).include_distribution_resources =
      p.include_distribution_resources ∧
    (p.register_broken_extension t e).include_test = p.include_test ∧
    assocGet (p.register_broken_extension t e).broken_extensions t2 =
      (if t2 = t then some (((assocGet p.broken_extensions t).getD []) ++ [e])
       else assocGet p.broken_extensions t2) := by
  refine ⟨rfl, rfl, rfl, rfl, rfl, rfl, rfl,
    rfl, rfl, rfl, rfl, rfl, rfl, rfl,
    rfl, rfl, rfl, rfl, rfl, rfl, rfl,
    rfl, rfl, rfl, rfl, rfl, rfl, rfl,
    rfl, rfl, rfl, rfl, rfl, rfl, rfl,
    rfl, rfl, rfl, rfl, rfl, rfl, rfl,
    rfl, rfl, rfl, rfl, rfl, rfl, ?_⟩
  unfold PythonPackagingPolicy.register_broken_extension
  dsimp only
  by_cases hc : assocContainsKey p.broken_extensions t = true
  · rw [if_neg (fun hcc => hcc hc), assocGet_assocPush]
    by_cases h2 : t2 = t
    · rw [if_pos h2, if_pos h2]
      unfold assocContainsKey at hc
      obtain ⟨l, hl⟩ := Option.isSome_iff_exists.mp hc
      rw [hl]
      rfl
    · rw [if_neg h2, if_neg h2]
  · rw [if_pos hc, assocGet_assocPush]
    by_cases h2 : t2 = t
    · rw [if_pos h2, assocGet_assocInsert, if_pos rfl, if_pos h2]
      unfold assocContainsKey at hc
      rw [Option.not_isSome_iff_eq_none.mp hc]
      rfl
    · rw [if_neg h2, assocGet_assocInsert, if_neg h2, if_neg h2]
